import Mathlib

/-!
Shallow embedding of the admission-control subsystem of s2n-quic
(`src/quic/s2n-quic-core/src/endpoint/limits.rs`) and of the TLS
configuration builder (`src/tls/s2n-tls/src/config.rs`), with theorems
settling the specification's claims about them.

Machine integers (`usize`, `u64`, `u32`) are embedded as `Nat`: they are
unsigned, and no arithmetic in the embedded code can overflow (the only
operations are comparisons, list appends and a saturating counter), so no
`% 2^w` reduction is needed.
-/

/-- Embedding of Rust `core::time::Duration`: an unsigned number of whole
seconds (`u64`) plus an unsigned sub-second nanosecond part (`u32`). -/
structure Duration where
  secs : Nat
  nanos : Nat
deriving DecidableEq

/-- Total nanosecond value of a `Duration`, as a signed integer, so that
non-negativity is a real arithmetic statement rather than a typing fact. -/
def Duration.toNanos (d : Duration) : Int :=
  (d.secs : Int) * 1000000000 + (d.nanos : Int)

/-- Embedding of `crate::inet::SocketAddress` (the unverified peer address
read from the datagram); its internal structure is irrelevant to the
admission logic, which only carries it by reference. -/
structure SocketAddress where
  raw : List Nat
deriving DecidableEq

/-- Rust `enum Outcome` from `limits.rs`: how the library should proceed on
a connection attempt. -/
inductive Outcome where
  /-- Allow the connection to continue -/
  | Allow : Outcome
  /-- Defer the connection by sending a Retry packet after a `delay` -/
  | Retry (delay : Duration) : Outcome
  /-- Silently drop the connection attempt -/
  | Drop : Outcome
  /-- Cleanly close the connection after a `delay` -/
  | Close (delay : Duration) : Outcome
deriving DecidableEq

/-- Discriminant of an `Outcome` (which of the four variants it is). -/
def Outcome.tag : Outcome → Fin 4
  | .Allow => 0
  | .Retry _ => 1
  | .Drop => 2
  | .Close _ => 3

/-- The duration payload of an `Outcome`, when the variant carries one:
`Retry` and `Close` carry exactly one `delay` field, `Allow` and `Drop`
carry none. -/
def Outcome.delayPayload : Outcome → Option Duration
  | .Retry d => some d
  | .Close d => some d
  | _ => none

/-- Rust `struct ConnectionAttempt<'a>` from `limits.rs`: a snapshot of one
incoming connection attempt. The borrow `&'a SocketAddress` is embedded as
the address value itself (a borrow denotes the value it refers to). -/
structure ConnectionAttempt where
  /-- Number of handshakes that have begun but not completed (`usize`). -/
  inflight_handshakes : Nat
  /-- The unverified address of the connecting peer. -/
  source_address : SocketAddress
deriving DecidableEq

/-- `ConnectionAttempt::new` from `limits.rs`. -/
def ConnectionAttempt.new (inflight_handshakes : Nat)
    (source_address : SocketAddress) : ConnectionAttempt :=
  { inflight_handshakes := inflight_handshakes
    source_address := source_address }

/-- The `Limits` trait from `limits.rs`: a policy is any type `S` of
internal state together with one decision operation. The Rust receiver
`&mut self` is embedded as explicit state passing: the operation consumes
the state and returns the outcome with the successor state. -/
structure Limits (S : Type) where
  on_connection_attempt : S → ConnectionAttempt → Outcome × S

/-- The reference policy `MyEndpointLimits` from the `Limits` doc example in
`limits.rs`: a fixed handshake threshold and a fixed retry delay. -/
structure MyEndpointLimits where
  handshake_limit : Nat
  delay : Duration
deriving DecidableEq

/-- `MyEndpointLimits::on_connection_attempt` from the `Limits` doc example:
`if info.inflight_handshakes > self.handshake_limit { Outcome::Retry { delay: self.delay } } else { Outcome::Allow }`.
The body never assigns through `&mut self`, so the successor state is the
received state. -/
def MyEndpointLimits.on_connection_attempt (self : MyEndpointLimits)
    (info : ConnectionAttempt) : Outcome × MyEndpointLimits :=
  if info.inflight_handshakes > self.handshake_limit then
    (Outcome.Retry self.delay, self)
  else
    (Outcome.Allow, self)

/-- The reference policy packaged as a `Limits` instance. -/
def MyEndpointLimits.limits : Limits MyEndpointLimits :=
  { on_connection_attempt := MyEndpointLimits.on_connection_attempt }

/-- A concrete address for witnesses. -/
def addr0 : SocketAddress := ⟨[127, 0, 0, 1]⟩

/-- 50 milliseconds, the delay of the spec's example scenario. -/
def ms50 : Duration := ⟨0, 50000000⟩

/-- C1: for the reference policy with threshold `T` and delay `D`, an
attempt with `inflight_handshakes > T` yields `Retry {delay := D}` and an
attempt with `inflight_handshakes ≤ T` yields `Allow` (boundary inclusive:
`T + 1` retries, `T` allows). -/
theorem reference_policy_threshold (T : Nat) (D : Duration)
    (a : SocketAddress) (n : Nat) :
    (n > T →
      (MyEndpointLimits.on_connection_attempt ⟨T, D⟩
        (ConnectionAttempt.new n a)).1 = Outcome.Retry D) ∧
    (n ≤ T →
      (MyEndpointLimits.on_connection_attempt ⟨T, D⟩
        (ConnectionAttempt.new n a)).1 = Outcome.Allow) := by
  constructor
  · intro h
    simp [MyEndpointLimits.on_connection_attempt, ConnectionAttempt.new, h]
  · intro h
    simp [MyEndpointLimits.on_connection_attempt, ConnectionAttempt.new,
      Nat.not_lt.mpr h]

/-- Witness for C1: the spec's example scenario, threshold 100 and delay
50 ms; count 150 retries, count 100 (the boundary) allows. -/
theorem reference_policy_threshold_witness :
    (MyEndpointLimits.on_connection_attempt ⟨100, ms50⟩
      (ConnectionAttempt.new 150 addr0)).1 = Outcome.Retry ms50 ∧
    (MyEndpointLimits.on_connection_attempt ⟨100, ms50⟩
      (ConnectionAttempt.new 100 addr0)).1 = Outcome.Allow :=
  ⟨(reference_policy_threshold 100 ms50 addr0 150).1 (by decide),
   (reference_policy_threshold 100 ms50 addr0 100).2 (by decide)⟩

/-- Every `Outcome` value is one of the four declared variants (shared
case analysis). -/
theorem Outcome.four_cases (o : Outcome) :
    o = Outcome.Allow ∨ (∃ d, o = Outcome.Retry d) ∨
      o = Outcome.Drop ∨ (∃ d, o = Outcome.Close d) := by
  cases o with
  | Allow => exact Or.inl rfl
  | Retry d => exact Or.inr (Or.inl ⟨d, rfl⟩)
  | Drop => exact Or.inr (Or.inr (Or.inl rfl))
  | Close d => exact Or.inr (Or.inr (Or.inr ⟨d, rfl⟩))

/-- C2: `Outcome` is a closed set of exactly four mutually exclusive
variants. Every value is `Allow`, `Retry`, `Drop` or `Close`; the variants
have pairwise distinct tags; and a value is fully determined by its tag
together with its at-most-one duration payload (so no variant carries more
than one payload field). -/
theorem outcome_closed_four_variants (o : Outcome) :
    (o = Outcome.Allow ∨ (∃ d, o = Outcome.Retry d) ∨
      o = Outcome.Drop ∨ (∃ d, o = Outcome.Close d)) ∧
    (∀ o₂ : Outcome, o.tag = o₂.tag → o.delayPayload = o₂.delayPayload →
      o = o₂) := by
  constructor
  · exact Outcome.four_cases o
  · intro o₂ htag hpay
    cases o <;> cases o₂ <;>
      simp_all [Outcome.tag, Outcome.delayPayload]

/-- Witness for C2: `Retry` with a 50 ms delay is exhausted by the four
variants, and agreeing on tag and payload forces equality. -/
theorem outcome_closed_four_variants_witness :
    (Outcome.Retry ms50 = Outcome.Allow ∨
      (∃ d, Outcome.Retry ms50 = Outcome.Retry d) ∨
      Outcome.Retry ms50 = Outcome.Drop ∨
      (∃ d, Outcome.Retry ms50 = Outcome.Close d)) ∧
    Outcome.Retry ms50 = Outcome.Retry ms50 :=
  ⟨(outcome_closed_four_variants (Outcome.Retry ms50)).1,
   (outcome_closed_four_variants (Outcome.Retry ms50)).2
     (Outcome.Retry ms50) rfl rfl⟩

/-- C3: the policy decision is deterministic. For every policy instance
`L : Limits S`, two invocations of `on_connection_attempt` from the same
internal state and the same attempt return equal results; in particular
this holds for the reference threshold policy. -/
theorem policy_deterministic {S : Type} (L : Limits S) (s s₂ : S)
    (a a₂ : ConnectionAttempt) (hs : s = s₂) (ha : a = a₂) :
    L.on_connection_attempt s a = L.on_connection_attempt s₂ a₂ := by
  subst hs; subst ha; rfl

/-- Witness for C3: the reference threshold policy at a concrete state and
attempt. -/
theorem policy_deterministic_witness :
    MyEndpointLimits.limits.on_connection_attempt ⟨100, ms50⟩
        (ConnectionAttempt.new 150 addr0) =
      MyEndpointLimits.limits.on_connection_attempt ⟨100, ms50⟩
        (ConnectionAttempt.new 150 addr0) :=
  policy_deterministic MyEndpointLimits.limits ⟨100, ms50⟩ ⟨100, ms50⟩
    (ConnectionAttempt.new 150 addr0) (ConnectionAttempt.new 150 addr0)
    rfl rfl

/-- C4: the admission policy has no error channel. For every policy
instance and every attempt, `on_connection_attempt` totally returns a value
that is one of the four `Outcome` variants; its type admits no error
result. -/
theorem policy_no_error_channel {S : Type} (L : Limits S) (s : S)
    (a : ConnectionAttempt) :
    (L.on_connection_attempt s a).1 = Outcome.Allow ∨
    (∃ d, (L.on_connection_attempt s a).1 = Outcome.Retry d) ∨
    (L.on_connection_attempt s a).1 = Outcome.Drop ∨
    (∃ d, (L.on_connection_attempt s a).1 = Outcome.Close d) :=
  Outcome.four_cases (L.on_connection_attempt s a).1

/-- C5: `ConnectionAttempt::new n a` returns a descriptor whose
`inflight_handshakes` field equals `n` and whose `source_address` field is
the very address `a` that was passed by reference; the count is an unsigned
integer (`usize`, embedded as `Nat`), so the stored count is non-negative
for every constructible descriptor. -/
theorem connection_attempt_new_fields (n : Nat) (a : SocketAddress) :
    (ConnectionAttempt.new n a).inflight_handshakes = n ∧
    (ConnectionAttempt.new n a).source_address = a ∧
    (0 : Int) ≤ ((ConnectionAttempt.new n a).inflight_handshakes : Int) :=
  ⟨rfl, rfl, Int.ofNat_nonneg n⟩

/-- C7: every `Outcome` that carries a duration payload (`Retry` or
`Close`) carries a non-negative delay: durations are unsigned seconds and
nanoseconds, so the total nanosecond value is never negative, and no
outcome with a negative delay can be constructed. -/
theorem outcome_delay_nonneg (o : Outcome) (d : Duration)
    (_h : o.delayPayload = some d) : (0 : Int) ≤ d.toNanos := by
  have hs : (0 : Int) ≤ (d.secs : Int) * 1000000000 :=
    mul_nonneg (Int.ofNat_nonneg _) (by norm_num)
  have hn : (0 : Int) ≤ (d.nanos : Int) := Int.ofNat_nonneg _
  calc (0 : Int) ≤ (d.secs : Int) * 1000000000 + (d.nanos : Int) :=
        add_nonneg hs hn
    _ = d.toNanos := rfl

/-- Witness for C7: the 50 ms delay of the `Retry` outcome in the spec's
example scenario is non-negative. -/
theorem outcome_delay_nonneg_witness : (0 : Int) ≤ ms50.toNanos :=
  outcome_delay_nonneg (Outcome.Retry ms50) ms50 rfl

/-- C10: the reference policy never mutates its state. Although the Rust
method receives `&mut self`, after a call to
`MyEndpointLimits::on_connection_attempt` both fields `handshake_limit`
and `delay` are unchanged from their values before the call. -/
theorem reference_policy_state_unchanged (s : MyEndpointLimits)
    (a : ConnectionAttempt) :
    (s.on_connection_attempt a).2.handshake_limit = s.handshake_limit ∧
    (s.on_connection_attempt a).2.delay = s.delay := by
  unfold MyEndpointLimits.on_connection_attempt
  split <;> exact ⟨rfl, rfl⟩

/-- Modelled from the spec: the Admission Engine of spec §4.3 is not under
`src/` (only the policy interface it calls is). Its authoritative in-flight
handshake counter is incremented when a handshake is created as a result of
an `Allow` outcome and decremented when a handshake completes, fails or
times out; per §7 a decrement below zero saturates at zero (which `Nat`
subtraction does). -/
structure AdmissionEngine where
  inflight : Nat
deriving DecidableEq

/-- Modelled from the spec: counter increment on an `Allow` outcome. -/
def AdmissionEngine.onAllow (e : AdmissionEngine) : AdmissionEngine :=
  ⟨e.inflight + 1⟩

/-- Modelled from the spec: counter decrement when a handshake completes or
fails (the flag records which; both decrement), saturating at zero. -/
def AdmissionEngine.onHandshakeDone (e : AdmissionEngine)
    (_success : Bool) : AdmissionEngine :=
  ⟨e.inflight - 1⟩

/-- Run one completion (success or failure) per element of `bs`. -/
def AdmissionEngine.runCompletions (bs : List Bool)
    (e : AdmissionEngine) : AdmissionEngine :=
  bs.foldl (fun e b => e.onHandshakeDone b) e

/-- `N` allows take the counter from `c` to `c + N`. -/
theorem AdmissionEngine.iterate_onAllow (c N : Nat) :
    AdmissionEngine.onAllow^[N] ⟨c⟩ = ⟨c + N⟩ := by
  induction N generalizing c with
  | zero => rfl
  | succ n ih =>
    rw [Function.iterate_succ_apply]
    show AdmissionEngine.onAllow^[n] ⟨c + 1⟩ = ⟨c + (n + 1)⟩
    rw [ih (c + 1)]
    congr 1
    omega

/-- Completions decrement one by one; from `c + N`, any `N` of them land
back on `c`. -/
theorem AdmissionEngine.runCompletions_cancel (c : Nat) (bs : List Bool) :
    AdmissionEngine.runCompletions bs ⟨c + bs.length⟩ = ⟨c⟩ := by
  induction bs generalizing c with
  | nil => rfl
  | cons b bs ih =>
    show AdmissionEngine.runCompletions bs
      (AdmissionEngine.onHandshakeDone ⟨c + (bs.length + 1)⟩ b) = ⟨c⟩
    have : AdmissionEngine.onHandshakeDone ⟨c + (bs.length + 1)⟩ b =
        ⟨c + bs.length⟩ := rfl
    rw [this, ih c]

/-- C6 (spec-modelled): counter conservation. For every starting counter
value `c` and every sequence of `N` `Allow` outcomes followed by `N`
handshake completions (each either success or failure, recorded in `bs`),
the in-flight counter returns to its pre-sequence value `c`. -/
theorem counter_conservation (c : Nat) (bs : List Bool) :
    (AdmissionEngine.runCompletions bs
      (AdmissionEngine.onAllow^[bs.length] ⟨c⟩)).inflight = c := by
  rw [AdmissionEngine.iterate_onAllow c bs.length,
    AdmissionEngine.runCompletions_cancel c bs]

/-- The error variant of `crate::error::Error` used by the builder paths in
`config.rs` (returned when an input cannot be converted for the foreign
call). -/
inductive Error where
  | InvalidInput : Error
deriving DecidableEq

/-- `std::ffi::CString::new`: fails exactly when the byte string contains a
NUL byte (`0x00`), since a C string cannot hold an interior NUL; otherwise
yields the bytes unchanged. -/
def CString.new (bytes : List Nat) : Except Error (List Nat) :=
  if bytes.contains 0 then Except.error Error.InvalidInput
  else Except.ok bytes

/-- The observable state of an `s2n_config` object, as acted on by the
foreign calls issued in `config.rs`: `s2n_config_set_cipher_preferences`
stores the named preference, `s2n_config_set_protocol_preferences` with a
null list resets the protocol list, `s2n_config_append_protocol_preference`
appends one protocol, `s2n_config_add_cert_chain_and_key` adds a
certificate/key pair and `s2n_config_add_pem_to_trust_store` adds a
certificate to the trust store. -/
structure S2nConfig where
  cipher_preferences : Option (List Nat)
  protocol_preferences : List (List Nat)
  cert_chains : List (List Nat × List Nat)
  trust_store : List (List Nat)
deriving DecidableEq

/-- The freshly created configuration (`Builder::new`). -/
def S2nConfig.empty : S2nConfig := ⟨none, [], [], []⟩

/-- `Builder::set_cipher_preference` from `config.rs`: convert `name` to a
C string (`Err(Error::InvalidInput)` on an interior NUL, before any foreign
call), then issue `s2n_config_set_cipher_preferences`. The Rust receiver
`&mut self` is embedded as state passing; on the early error return the
configuration is the one received. -/
def Builder.set_cipher_preference (b : S2nConfig) (name : List Nat) :
    Except Error Unit × S2nConfig :=
  match CString.new name with
  | Except.error e => (Except.error e, b)
  | Except.ok n => (Except.ok (), { b with cipher_preferences := some n })

/-- `Builder::load_pem` from `config.rs`: convert the certificate and then
the private key to C strings (each `Err(Error::InvalidInput)` on an
interior NUL, before the foreign call), then issue
`s2n_config_add_cert_chain_and_key`. -/
def Builder.load_pem (b : S2nConfig)
    (certificate private_key : List Nat) :
    Except Error Unit × S2nConfig :=
  match CString.new certificate with
  | Except.error e => (Except.error e, b)
  | Except.ok c =>
    match CString.new private_key with
    | Except.error e => (Except.error e, b)
    | Except.ok k =>
      (Except.ok (), { b with cert_chains := b.cert_chains ++ [(c, k)] })

/-- `Builder::trust_pem` from `config.rs`: convert the certificate to a C
string (`Err(Error::InvalidInput)` on an interior NUL, before the foreign
call), then issue `s2n_config_add_pem_to_trust_store`. -/
def Builder.trust_pem (b : S2nConfig) (certificate : List Nat) :
    Except Error Unit × S2nConfig :=
  match CString.new certificate with
  | Except.error e => (Except.error e, b)
  | Except.ok c =>
    (Except.ok (), { b with trust_store := b.trust_store ++ [c] })

/-- `Builder::append_alpn_preference` from `config.rs`: the protocol length
(`usize`) is converted with `try_into` to the `u8` length parameter of
`s2n_config_append_protocol_preference` — `Err(Error::InvalidInput)` when
it exceeds 255, evaluated before the foreign call — then the protocol is
appended to the configuration's list. -/
def Builder.append_alpn_preference (b : S2nConfig)
    (protocol : List Nat) : Except Error Unit × S2nConfig :=
  if protocol.length ≤ 255 then
    (Except.ok (),
      { b with protocol_preferences := b.protocol_preferences ++ [protocol] })
  else (Except.error Error.InvalidInput, b)

/-- The `for protocol in protocols { self.append_alpn_preference(...)? }`
loop of `Builder::set_alpn_preference`: append each protocol in order,
stopping at the first error. -/
def Builder.append_alpn_all (b : S2nConfig) :
    List (List Nat) → Except Error Unit × S2nConfig
  | [] => (Except.ok (), b)
  | p :: ps =>
    match Builder.append_alpn_preference b p with
    | (Except.ok _, b2) => Builder.append_alpn_all b2 ps
    | (Except.error e, b2) => (Except.error e, b2)

/-- `Builder::set_alpn_preference` from `config.rs`: first reset the list
(`s2n_config_set_protocol_preferences` with a null pointer and count 0),
then append every protocol of the argument in order. -/
def Builder.set_alpn_preference (b : S2nConfig)
    (protocols : List (List Nat)) : Except Error Unit × S2nConfig :=
  Builder.append_alpn_all { b with protocol_preferences := [] } protocols

/-- C8: for every byte string containing a NUL byte (0x00), each of
`set_cipher_preference`, `load_pem` (the NUL in either argument) and
`trust_pem` returns `Err(Error::InvalidInput)`, and the configuration is
left exactly as it was: the conversion fails before the foreign call is
ever made. -/
theorem nul_byte_rejected_config_unchanged (b : S2nConfig)
    (s : List Nat) (h : (0 : Nat) ∈ s) :
    Builder.set_cipher_preference b s =
      (Except.error Error.InvalidInput, b) ∧
    (∀ k, Builder.load_pem b s k = (Except.error Error.InvalidInput, b)) ∧
    (∀ c, Builder.load_pem b c s = (Except.error Error.InvalidInput, b)) ∧
    Builder.trust_pem b s = (Except.error Error.InvalidInput, b) := by
  have hc : CString.new s = Except.error Error.InvalidInput := by
    unfold CString.new
    rw [if_pos (List.elem_eq_true_of_mem h)]
  refine ⟨?_, ?_, ?_, ?_⟩
  · unfold Builder.set_cipher_preference
    rw [hc]
  · intro k
    unfold Builder.load_pem
    rw [hc]
  · intro c
    unfold Builder.load_pem
    cases hcc : CString.new c with
    | error e =>
      unfold CString.new at hcc
      split at hcc
      · cases hcc; rfl
      · cases hcc
    | ok v => rw [hc]
  · unfold Builder.trust_pem
    rw [hc]

/-- Witness for C8: the byte string `[80, 0, 69]` holds an interior NUL;
on the fresh configuration every one of the three operations rejects it and
leaves the configuration unchanged. -/
theorem nul_byte_rejected_config_unchanged_witness :
    Builder.set_cipher_preference S2nConfig.empty [80, 0, 69] =
      (Except.error Error.InvalidInput, S2nConfig.empty) ∧
    (∀ k, Builder.load_pem S2nConfig.empty [80, 0, 69] k =
      (Except.error Error.InvalidInput, S2nConfig.empty)) ∧
    (∀ c, Builder.load_pem S2nConfig.empty c [80, 0, 69] =
      (Except.error Error.InvalidInput, S2nConfig.empty)) ∧
    Builder.trust_pem S2nConfig.empty [80, 0, 69] =
      (Except.error Error.InvalidInput, S2nConfig.empty) :=
  nul_byte_rejected_config_unchanged S2nConfig.empty [80, 0, 69]
    (by decide)

/-- When every protocol fits in the `u8` length parameter, the append loop
succeeds and appends the whole list in order, touching nothing else. -/
theorem append_alpn_all_spec (ps : List (List Nat)) (b : S2nConfig)
    (h : ∀ p ∈ ps, p.length ≤ 255) :
    Builder.append_alpn_all b ps = (Except.ok (),
      { b with protocol_preferences := b.protocol_preferences ++ ps }) := by
  induction ps generalizing b with
  | nil => simp [Builder.append_alpn_all]
  | cons p ps ih =>
    have hp : p.length ≤ 255 := h p (List.mem_cons_self p ps)
    have hps : ∀ q ∈ ps, q.length ≤ 255 :=
      fun q hq => h q (List.mem_cons_of_mem p hq)
    unfold Builder.append_alpn_all Builder.append_alpn_preference
    rw [if_pos hp]
    show Builder.append_alpn_all
      { b with protocol_preferences := b.protocol_preferences ++ [p] } ps = _
    rw [ih _ hps]
    simp

/-- A successful append loop means every protocol fitted in the `u8`
length parameter. -/
theorem append_alpn_all_ok_lengths (ps : List (List Nat)) (b : S2nConfig)
    (h : (Builder.append_alpn_all b ps).1 = Except.ok ()) :
    ∀ p ∈ ps, p.length ≤ 255 := by
  induction ps generalizing b with
  | nil => intro p hp; cases hp
  | cons p ps ih =>
    intro q hq
    unfold Builder.append_alpn_all Builder.append_alpn_preference at h
    by_cases hp : p.length ≤ 255
    · rw [if_pos hp] at h
      rcases List.mem_cons.mp hq with hq | hq
      · subst hq; exact hp
      · exact ih _ h q hq
    · rw [if_neg hp] at h
      cases h

/-- C9: `set_alpn_preference` has last-write-wins semantics. A successful
call with `P1` followed by a successful call with `P2` leaves the
configuration's protocol preferences equal to those after a single
successful call with `P2` from the original configuration: each call first
resets the preference list to empty and then appends every protocol of its
argument in order. -/
theorem alpn_last_write_wins (b b1 b2 : S2nConfig)
    (P1 P2 : List (List Nat))
    (_h1 : Builder.set_alpn_preference b P1 = (Except.ok (), b1))
    (h2 : Builder.set_alpn_preference b1 P2 = (Except.ok (), b2)) :
    ∃ b3, Builder.set_alpn_preference b P2 = (Except.ok (), b3) ∧
      b2.protocol_preferences = b3.protocol_preferences := by
  have hok : (Builder.append_alpn_all
      { b1 with protocol_preferences := [] } P2).1 = Except.ok () := by
    unfold Builder.set_alpn_preference at h2
    rw [h2]
  have hlen : ∀ p ∈ P2, p.length ≤ 255 :=
    append_alpn_all_ok_lengths P2 _ hok
  have hb2 : b2.protocol_preferences = P2 := by
    unfold Builder.set_alpn_preference at h2
    rw [append_alpn_all_spec P2 _ hlen] at h2
    have := congrArg Prod.snd h2
    simp at this
    rw [← this]
  refine ⟨{ b with protocol_preferences := P2 }, ?_, ?_⟩
  · unfold Builder.set_alpn_preference
    rw [append_alpn_all_spec P2 _ hlen]
    simp
  · exact hb2

/-- Witness for C9: on the fresh configuration, setting `[[1]]` and then
`[[2], [3]]` leaves the same protocol preferences as setting `[[2], [3]]`
alone. -/
theorem alpn_last_write_wins_witness :
    ∃ b3, Builder.set_alpn_preference S2nConfig.empty [[2], [3]] =
        (Except.ok (), b3) ∧
      (S2nConfig.mk none [[2], [3]] [] []).protocol_preferences =
        b3.protocol_preferences :=
  alpn_last_write_wins S2nConfig.empty (S2nConfig.mk none [[1]] [] [])
    (S2nConfig.mk none [[2], [3]] [] []) [[1]] [[2], [3]] rfl rfl
